import Mathlib

/-!
Shallow embedding of the `kasedenv` crate (src/lib.rs): case-insensitive and
case-normalized access to process environment variables.

The environment snapshot produced by the platform primitive
(Rust `std::env::vars()`) is modelled as a `List (String × String)` and passed
explicitly to each function that, in the source, reads it afresh.
The build-time feature choice (ASCII vs. Unicode case handling, Rust feature
`unicode`) is modelled as a `CaseMode` record passed explicitly; the source
selects exactly one such mode for the whole library at build time.
-/

namespace Kasedenv

/-- Modelled from the dependency `std::env::VarError` (not part of src/):
the error type of the lookups. The crate itself only ever constructs
`NotPresent`; `NotUnicode` exists on the type but is never produced here. -/
inductive VarError where
  | NotPresent : VarError
  | NotUnicode : String → VarError
deriving DecidableEq, Repr

/-- The build-time case policy: how the uncased wrapper compares two keys,
and how keys are lowercased / uppercased. In the source this is fixed by the
`unicode` cargo feature; here the two concrete modes are `asciiMode` and
`unicodeMode` below. -/
structure CaseMode where
  uncasedEq : String → String → Bool
  toLower : String → String
  toUpper : String → String

/-- Rust `u8::to_ascii_lowercase` lifted to `Char` (`A`..`Z` shifted by 32,
everything else unchanged), as used by `str::to_ascii_lowercase` and
`str::eq_ignore_ascii_case`. -/
def asciiLowerChar (c : Char) : Char :=
  if 65 ≤ c.toNat ∧ c.toNat ≤ 90 then Char.ofNat (c.toNat + 32) else c

/-- Rust `u8::to_ascii_uppercase` lifted to `Char` (`a`..`z` shifted by 32,
everything else unchanged). -/
def asciiUpperChar (c : Char) : Char :=
  if 97 ≤ c.toNat ∧ c.toNat ≤ 122 then Char.ofNat (c.toNat - 32) else c

/-- Rust `str::eq_ignore_ascii_case`: same length and corresponding
characters equal after ASCII lowercasing. -/
def eqIgnoreAsciiCase : List Char → List Char → Bool
  | [], [] => true
  | a :: as, b :: bs => asciiLowerChar a == asciiLowerChar b && eqIgnoreAsciiCase as bs
  | _, _ => false

/-- Rust `str::to_ascii_lowercase`. -/
def toAsciiLowercase (s : String) : String :=
  String.mk (s.data.map asciiLowerChar)

/-- Rust `str::to_ascii_uppercase`. -/
def toAsciiUppercase (s : String) : String :=
  String.mk (s.data.map asciiUpperChar)

/-- The ASCII build configuration (cargo feature `unicode` disabled):
uncased comparison is `eq_ignore_ascii_case` (src/lib.rs lines 31-36),
key transforms are `to_ascii_lowercase` / `to_ascii_uppercase`
(src/lib.rs lines 98 and 131). -/
def asciiMode : CaseMode where
  uncasedEq a b := eqIgnoreAsciiCase a.data b.data
  toLower := toAsciiLowercase
  toUpper := toAsciiUppercase

/-- Modelled from the spec: the Unicode build uses the full Unicode lowercase
mapping (Rust `str::to_lowercase`), dependency code not under src/. It is
embedded here restricted to the character repertoire the spec exercises:
ASCII letters and U+00DF (ß, which lowercases to itself); every other
character maps to itself. -/
def unicodeLowerChar (c : Char) : List Char :=
  if 65 ≤ c.toNat ∧ c.toNat ≤ 90 then [Char.ofNat (c.toNat + 32)] else [c]

/-- Modelled from the spec: the Unicode uppercase mapping
(Rust `str::to_uppercase`), dependency code not under src/, restricted to the
repertoire the spec exercises: ASCII letters, and the multi-codepoint
expansion of U+00DF (ß) to "SS"; every other character maps to itself. -/
def unicodeUpperChar (c : Char) : List Char :=
  if c = 'ß' then ['S', 'S']
  else if 97 ≤ c.toNat ∧ c.toNat ≤ 122 then [Char.ofNat (c.toNat - 32)]
  else [c]

/-- Modelled from the spec: Unicode default case folding as used by the
`unicase` crate for caseless equality, dependency code not under src/,
restricted to the repertoire the spec exercises: ASCII uppercase folds to
lowercase, U+00DF (ß) folds to "ss"; every other character maps to itself.
(The smart ASCII fast path of `UniCase::new` coincides with this folding on
ASCII strings.) -/
def unicodeFoldChar (c : Char) : List Char :=
  if c = 'ß' then ['s', 's']
  else if 65 ≤ c.toNat ∧ c.toNat ≤ 90 then [Char.ofNat (c.toNat + 32)]
  else [c]

/-- Rust `str::to_lowercase` (Unicode build), on the modelled repertoire. -/
def unicodeToLowercase (s : String) : String :=
  String.mk (s.data.flatMap unicodeLowerChar)

/-- Rust `str::to_uppercase` (Unicode build), on the modelled repertoire. -/
def unicodeToUppercase (s : String) : String :=
  String.mk (s.data.flatMap unicodeUpperChar)

/-- Unicode caseless folding of a whole string, on the modelled repertoire. -/
def unicodeFold (s : String) : String :=
  String.mk (s.data.flatMap unicodeFoldChar)

/-- The Unicode build configuration (cargo feature `unicode` enabled):
uncased comparison is `UniCase` equality, i.e. equality of case foldings
(src/lib.rs lines 24-29); key transforms are Unicode
`to_lowercase` / `to_uppercase` (src/lib.rs lines 96 and 129). -/
def unicodeMode : CaseMode where
  uncasedEq a b := unicodeFold a == unicodeFold b
  toLower := unicodeToLowercase
  toUpper := unicodeToUppercase

/-- `UncasedPartialEq` (src/lib.rs lines 16-22): a wrapper around the key
string. In both builds the wrapped text is stored unchanged
(`UncasedPartialEq(k)` resp. `UniCase::new(k)` keep `k`); only the equality
semantics differ, given by `UncasedPartialEq.beq`. -/
structure UncasedPartialEq where
  key : String
deriving DecidableEq, Repr

/-- The `PartialEq<S>` impl for `UncasedPartialEq` (src/lib.rs lines 24-36):
the uncased comparison of the selected build mode. -/
def UncasedPartialEq.beq (m : CaseMode) (a : UncasedPartialEq) (other : String) : Bool :=
  m.uncasedEq a.key other

/-- `UncasedVars` (src/lib.rs line 51): wraps the `env::Vars` snapshot. -/
structure UncasedVars where
  inner : List (String × String)
deriving DecidableEq, Repr

/-- `Iterator::next` for `UncasedVars` (src/lib.rs lines 54-69): takes the
next raw pair and wraps the key, without changing its text. -/
def UncasedVars.next : UncasedVars → Option ((UncasedPartialEq × String) × UncasedVars)
  | ⟨[]⟩ => none
  | ⟨(k, v) :: rest⟩ => some ((⟨k⟩, v), ⟨rest⟩)

/-- `uncased_vars` (src/lib.rs lines 73-75); the `env::Vars` snapshot is the
explicit argument. -/
def uncased_vars (env : List (String × String)) : UncasedVars :=
  ⟨env⟩

/-- Recursion underlying `UncasedVars.toList`, on the wrapped list. -/
def uncasedCollect : List (String × String) → List (UncasedPartialEq × String)
  | [] => []
  | (k, v) :: rest => (⟨k⟩, v) :: uncasedCollect rest

/-- Collecting the `UncasedVars` iterator: repeated `UncasedVars.next` until
exhaustion. -/
def UncasedVars.toList (it : UncasedVars) : List (UncasedPartialEq × String) :=
  uncasedCollect it.inner

/-- Recursion underlying `UncasedVars.findKey`, on the wrapped list. -/
def uncasedFindFrom (m : CaseMode) (key : String) :
    List (String × String) → Option (UncasedPartialEq × String)
  | [] => none
  | (k, v) :: rest =>
    if UncasedPartialEq.beq m ⟨k⟩ key then some (⟨k⟩, v)
    else uncasedFindFrom m key rest

/-- `Iterator::find` on `UncasedVars` with the closure of `uncased_var`
(src/lib.rs line 82): repeated `next` returning the first item whose wrapped
key compares equal to `key` under the mode. -/
def UncasedVars.findKey (m : CaseMode) (key : String) (it : UncasedVars) :
    Option (UncasedPartialEq × String) :=
  uncasedFindFrom m key it.inner

/-- Rust `Option::ok_or`. -/
def okOr {α : Type} : Option α → VarError → Except VarError α
  | some a, _ => Except.ok a
  | none, e => Except.error e

instance {ε α : Type} [DecidableEq ε] [DecidableEq α] : DecidableEq (Except ε α) := fun a b =>
  match a, b with
  | Except.ok x, Except.ok y =>
    if h : x = y then Decidable.isTrue (by rw [h]) else Decidable.isFalse (by simp [h])
  | Except.ok _, Except.error _ => Decidable.isFalse (by simp)
  | Except.error _, Except.ok _ => Decidable.isFalse (by simp)
  | Except.error e, Except.error f =>
    if h : e = f then Decidable.isTrue (by rw [h]) else Decidable.isFalse (by simp [h])

/-- `uncased_var` (src/lib.rs lines 80-83). -/
def uncased_var (m : CaseMode) (env : List (String × String)) (key : String) :
    Except VarError String :=
  okOr ((UncasedVars.findKey m key (uncased_vars env)).map Prod.snd) VarError.NotPresent

/-- `LowerVars` (src/lib.rs line 88): wraps the `env::Vars` snapshot. -/
structure LowerVars where
  inner : List (String × String)
deriving DecidableEq, Repr

/-- `Iterator::next` for `LowerVars` (src/lib.rs lines 90-101): takes the
next raw pair and lowercases the key per the build mode. -/
def LowerVars.next (m : CaseMode) : LowerVars → Option ((String × String) × LowerVars)
  | ⟨[]⟩ => none
  | ⟨(k, v) :: rest⟩ => some ((m.toLower k, v), ⟨rest⟩)

/-- `lower_vars` (src/lib.rs lines 106-108). -/
def lower_vars (env : List (String × String)) : LowerVars :=
  ⟨env⟩

/-- Recursion underlying `LowerVars.toList`, on the wrapped list. -/
def lowerCollect (m : CaseMode) : List (String × String) → List (String × String)
  | [] => []
  | (k, v) :: rest => (m.toLower k, v) :: lowerCollect m rest

/-- Collecting the `LowerVars` iterator by repeated `LowerVars.next`. -/
def LowerVars.toList (m : CaseMode) (it : LowerVars) : List (String × String) :=
  lowerCollect m it.inner

/-- Recursion underlying `LowerVars.findKey`, on the wrapped list. -/
def lowerFindFrom (m : CaseMode) (key : String) :
    List (String × String) → Option (String × String)
  | [] => none
  | (k, v) :: rest =>
    if m.toLower k == key then some (m.toLower k, v)
    else lowerFindFrom m key rest

/-- `Iterator::find` on `LowerVars` with the closure of `lower_var`
(src/lib.rs line 115): first produced pair whose (lowercased) key equals
`key` exactly. -/
def LowerVars.findKey (m : CaseMode) (key : String) (it : LowerVars) :
    Option (String × String) :=
  lowerFindFrom m key it.inner

/-- `lower_var` (src/lib.rs lines 113-116). -/
def lower_var (m : CaseMode) (env : List (String × String)) (key : String) :
    Except VarError String :=
  okOr ((LowerVars.findKey m key (lower_vars env)).map Prod.snd) VarError.NotPresent

/-- `UpperVars` (src/lib.rs line 121): wraps the `env::Vars` snapshot. -/
structure UpperVars where
  inner : List (String × String)
deriving DecidableEq, Repr

/-- `Iterator::next` for `UpperVars` (src/lib.rs lines 123-134): takes the
next raw pair and uppercases the key per the build mode. -/
def UpperVars.next (m : CaseMode) : UpperVars → Option ((String × String) × UpperVars)
  | ⟨[]⟩ => none
  | ⟨(k, v) :: rest⟩ => some ((m.toUpper k, v), ⟨rest⟩)

/-- `upper_vars` (src/lib.rs lines 139-141). -/
def upper_vars (env : List (String × String)) : UpperVars :=
  ⟨env⟩

/-- Recursion underlying `UpperVars.toList`, on the wrapped list. -/
def upperCollect (m : CaseMode) : List (String × String) → List (String × String)
  | [] => []
  | (k, v) :: rest => (m.toUpper k, v) :: upperCollect m rest

/-- Collecting the `UpperVars` iterator by repeated `UpperVars.next`. -/
def UpperVars.toList (m : CaseMode) (it : UpperVars) : List (String × String) :=
  upperCollect m it.inner

/-- Recursion underlying `UpperVars.findKey`, on the wrapped list. -/
def upperFindFrom (m : CaseMode) (key : String) :
    List (String × String) → Option (String × String)
  | [] => none
  | (k, v) :: rest =>
    if m.toUpper k == key then some (m.toUpper k, v)
    else upperFindFrom m key rest

/-- `Iterator::find` on `UpperVars` with the closure of `upper_var`
(src/lib.rs line 148). -/
def UpperVars.findKey (m : CaseMode) (key : String) (it : UpperVars) :
    Option (String × String) :=
  upperFindFrom m key it.inner

/-- `upper_var` (src/lib.rs lines 146-149). -/
def upper_var (m : CaseMode) (env : List (String × String)) (key : String) :
    Except VarError String :=
  okOr ((UpperVars.findKey m key (upper_vars env)).map Prod.snd) VarError.NotPresent

/-! ### Supporting lemmas -/

theorem okOr_eq_ok {α : Type} {o : Option α} {e : VarError} {a : α} :
    okOr o e = Except.ok a ↔ o = some a := by
  cases o <;> simp [okOr]

theorem okOr_eq_error {α : Type} {o : Option α} {e f : VarError} :
    okOr o e = Except.error f ↔ o = none ∧ f = e := by
  cases o <;> simp [okOr, eq_comm]

theorem uncasedFindFrom_eq (m : CaseMode) (key : String) (env : List (String × String)) :
    uncasedFindFrom m key env =
      (env.find? fun p => m.uncasedEq p.1 key).map fun p => (UncasedPartialEq.mk p.1, p.2) := by
  induction env with
  | nil => rfl
  | cons q rest ih =>
    obtain ⟨k, v⟩ := q
    by_cases h : m.uncasedEq k key = true
    · simp [uncasedFindFrom, UncasedPartialEq.beq, List.find?, h]
    · have h2 : m.uncasedEq k key = false := by simpa using h
      simp [uncasedFindFrom, UncasedPartialEq.beq, List.find?, h2, ih]

theorem lowerFindFrom_eq (m : CaseMode) (key : String) (env : List (String × String)) :
    lowerFindFrom m key env =
      (env.find? fun p => m.toLower p.1 == key).map fun p => (m.toLower p.1, p.2) := by
  induction env with
  | nil => rfl
  | cons q rest ih =>
    obtain ⟨k, v⟩ := q
    by_cases h : (m.toLower k == key) = true
    · simp [lowerFindFrom, List.find?, h]
    · have h2 : (m.toLower k == key) = false := by simpa using h
      simp [lowerFindFrom, List.find?, h2, ih]

theorem upperFindFrom_eq (m : CaseMode) (key : String) (env : List (String × String)) :
    upperFindFrom m key env =
      (env.find? fun p => m.toUpper p.1 == key).map fun p => (m.toUpper p.1, p.2) := by
  induction env with
  | nil => rfl
  | cons q rest ih =>
    obtain ⟨k, v⟩ := q
    by_cases h : (m.toUpper k == key) = true
    · simp [upperFindFrom, List.find?, h]
    · have h2 : (m.toUpper k == key) = false := by simpa using h
      simp [upperFindFrom, List.find?, h2, ih]

theorem uncasedCollect_eq (env : List (String × String)) :
    uncasedCollect env = env.map fun p => (UncasedPartialEq.mk p.1, p.2) := by
  induction env with
  | nil => rfl
  | cons p rest ih => simp [uncasedCollect, ih]

theorem lowerCollect_eq (m : CaseMode) (env : List (String × String)) :
    lowerCollect m env = env.map fun p => (m.toLower p.1, p.2) := by
  induction env with
  | nil => rfl
  | cons p rest ih => simp [lowerCollect, ih]

theorem upperCollect_eq (m : CaseMode) (env : List (String × String)) :
    upperCollect m env = env.map fun p => (m.toUpper p.1, p.2) := by
  induction env with
  | nil => rfl
  | cons p rest ih => simp [upperCollect, ih]

/-- Rewriting each lookup through `List.find?` on the snapshot. -/
theorem uncased_var_eq (m : CaseMode) (env : List (String × String)) (key : String) :
    uncased_var m env key =
      okOr (((env.find? fun p => m.uncasedEq p.1 key).map
        fun p => (UncasedPartialEq.mk p.1, p.2)).map Prod.snd) VarError.NotPresent := by
  unfold uncased_var UncasedVars.findKey uncased_vars
  rw [uncasedFindFrom_eq]

theorem lower_var_eq (m : CaseMode) (env : List (String × String)) (key : String) :
    lower_var m env key =
      okOr (((env.find? fun p => m.toLower p.1 == key).map
        fun p => (m.toLower p.1, p.2)).map Prod.snd) VarError.NotPresent := by
  unfold lower_var LowerVars.findKey lower_vars
  rw [lowerFindFrom_eq]

theorem upper_var_eq (m : CaseMode) (env : List (String × String)) (key : String) :
    upper_var m env key =
      okOr (((env.find? fun p => m.toUpper p.1 == key).map
        fun p => (m.toUpper p.1, p.2)).map Prod.snd) VarError.NotPresent := by
  unfold upper_var UpperVars.findKey upper_vars
  rw [upperFindFrom_eq]

/-- `List.find?` returns `some a` exactly when the list splits as a prefix of
non-matching elements followed by `a`, which matches. -/
theorem find_eq_some_split {α : Type} {p : α → Bool} {a : α} {l : List α} :
    l.find? p = some a ↔
      ∃ l₁ l₂, l = l₁ ++ a :: l₂ ∧ p a = true ∧ ∀ b ∈ l₁, p b = false := by
  induction l with
  | nil => simp
  | cons x xs ih =>
    by_cases hx : p x = true
    · rw [List.find?_cons_of_pos _ hx]
      constructor
      · intro h
        injection h with h
        subst h
        exact ⟨[], xs, rfl, hx, by simp⟩
      · rintro ⟨l₁, l₂, heq, hpa, hall⟩
        cases l₁ with
        | nil =>
          injection heq with h1 h2
          rw [h1]
        | cons y ys =>
          injection heq with h1 h2
          subst h1
          rw [hall x (by simp)] at hx
          cases hx
    · rw [List.find?_cons_of_neg _ hx]
      rw [ih]
      constructor
      · rintro ⟨l₁, l₂, rfl, hpa, hall⟩
        refine ⟨x :: l₁, l₂, rfl, hpa, ?_⟩
        intro b hb
        rcases List.mem_cons.mp hb with rfl | hb
        · exact Bool.not_eq_true _ ▸ eq_false_of_ne_true hx
        · exact hall b hb
      · rintro ⟨l₁, l₂, heq, hpa, hall⟩
        cases l₁ with
        | nil =>
          injection heq with h1 h2
          subst h1
          exact absurd hpa hx
        | cons y ys =>
          injection heq with h1 h2
          subst h1
          exact ⟨ys, l₂, h2, hpa, fun b hb => hall b (List.mem_cons_of_mem _ hb)⟩

/-- The generic shape shared by the three lookups, `some` side. -/
theorem lookup_ok_iff {β : Type} (P : String × String → Bool)
    (g : String × String → β × String) (hg : ∀ p, (g p).2 = p.2)
    (env : List (String × String)) (v : String) :
    okOr (((env.find? P).map g).map Prod.snd) VarError.NotPresent = Except.ok v ↔
      ∃ l₁ k l₂, env = l₁ ++ (k, v) :: l₂ ∧ P (k, v) = true ∧ ∀ p ∈ l₁, P p = false := by
  rw [okOr_eq_ok, Option.map_map]
  constructor
  · intro h
    rcases Option.map_eq_some'.mp h with ⟨q, hfind, hv⟩
    obtain ⟨k, v0⟩ := q
    have hv2 : v0 = v := by
      have := hg (k, v0)
      simp only [Function.comp] at hv
      rw [this] at hv
      exact hv
    subst hv2
    rcases find_eq_some_split.mp hfind with ⟨l₁, l₂, heq, hP, hall⟩
    exact ⟨l₁, k, l₂, heq, hP, hall⟩
  · rintro ⟨l₁, k, l₂, rfl, hP, hall⟩
    have hfind : (l₁ ++ (k, v) :: l₂).find? P = some (k, v) :=
      find_eq_some_split.mpr ⟨l₁, l₂, rfl, hP, hall⟩
    rw [hfind]
    simp [Function.comp, hg (k, v)]

/-- The generic shape shared by the three lookups, `error` side. -/
theorem lookup_error_iff {β : Type} (P : String × String → Bool)
    (g : String × String → β × String) (env : List (String × String)) (e : VarError) :
    okOr (((env.find? P).map g).map Prod.snd) VarError.NotPresent = Except.error e ↔
      e = VarError.NotPresent ∧ ∀ p ∈ env, P p = false := by
  rw [okOr_eq_error, Option.map_map]
  constructor
  · rintro ⟨hnone, rfl⟩
    refine ⟨rfl, ?_⟩
    intro p hp
    have hfind := Option.map_eq_none'.mp hnone
    have := List.find?_eq_none.mp hfind p hp
    simpa using this
  · rintro ⟨rfl, hall⟩
    refine ⟨?_, rfl⟩
    rw [Option.map_eq_none', List.find?_eq_none]
    intro p hp
    simp [hall p hp]

theorem toNat_ofNat_lt {n : Nat} (h : n < 55296) : (Char.ofNat n).toNat = n := by
  simp [Char.ofNat, Nat.isValidChar, h, Char.ofNatAux, Char.toNat, UInt32.toNat]

/-- `asciiLowerChar` never produces an uppercase ASCII letter. -/
theorem asciiLowerChar_not_upper (c : Char) :
    ¬(65 ≤ (asciiLowerChar c).toNat ∧ (asciiLowerChar c).toNat ≤ 90) := by
  unfold asciiLowerChar
  by_cases h : 65 ≤ c.toNat ∧ c.toNat ≤ 90
  · rw [if_pos h, toNat_ofNat_lt (by omega)]
    omega
  · rw [if_neg h]
    exact h

/-- `asciiUpperChar` never produces a lowercase ASCII letter. -/
theorem asciiUpperChar_not_lower (c : Char) :
    ¬(97 ≤ (asciiUpperChar c).toNat ∧ (asciiUpperChar c).toNat ≤ 122) := by
  unfold asciiUpperChar
  by_cases h : 97 ≤ c.toNat ∧ c.toNat ≤ 122
  · rw [if_pos h, toNat_ofNat_lt (by omega)]
    omega
  · rw [if_neg h]
    exact h

/-! ### Claim theorems -/

/-- Claim C1, counterexample to the claim as stated: the environment
`[("A", "1"), ("a", "2")]` contains the pair `("a", "2")`, and `"A"` is a
casing variant of `"a"` under the ASCII policy, yet `uncased_var "A"` returns
the value of the earlier matching pair `("A", "1")`, not `Ok "2"`. -/
theorem uncased_var_shadowed_cex :
    ("a", "2") ∈ [("A", "1"), ("a", "2")] ∧
    asciiMode.uncasedEq "a" "A" = true ∧
    uncased_var asciiMode [("A", "1"), ("a", "2")] "A" = Except.ok "1" ∧
    uncased_var asciiMode [("A", "1"), ("a", "2")] "A" ≠ Except.ok "2" := by
  decide

/-- Claim C1 (amended): for every environment containing a pair `(K, V)`
and every key `Kq` that compares equal to `K` under the selected case policy,
`uncased_var Kq` returns `Ok V` provided no pair earlier in the environment
also matches `Kq` under the policy. -/
theorem uncased_var_first_variant (m : CaseMode) (l₁ l₂ : List (String × String))
    (K V Kq : String) (hvar : m.uncasedEq K Kq = true)
    (hbefore : ∀ p ∈ l₁, m.uncasedEq p.1 Kq = false) :
    uncased_var m (l₁ ++ (K, V) :: l₂) Kq = Except.ok V := by
  rw [uncased_var_eq]
  exact (lookup_ok_iff (fun p => m.uncasedEq p.1 Kq)
    (fun p => (UncasedPartialEq.mk p.1, p.2)) (fun p => rfl) _ _).mpr
    ⟨l₁, K, l₂, rfl, hvar, hbefore⟩

theorem uncased_var_first_variant_witness :
    asciiMode.uncasedEq "hello" "HeLLo" = true ∧
    (∀ p ∈ [("PATH", "bin")], asciiMode.uncasedEq p.1 "HeLLo" = false) ∧
    uncased_var asciiMode ([("PATH", "bin")] ++ ("hello", "world") :: []) "HeLLo" =
      Except.ok "world" :=
  ⟨by decide, by decide,
    uncased_var_first_variant asciiMode [("PATH", "bin")] [] "hello" "world" "HeLLo"
      (by decide) (by decide)⟩

/-- Claim C2: every lookup is a linear scan of the snapshot in enumeration
order, returning the value of the first pair whose key matches under the
mode, so with several matching pairs the first in enumeration order wins:
the result is `Ok v` exactly when the snapshot splits into a prefix of
non-matching pairs followed by a matching pair carrying `v`. -/
theorem lookups_scan_first_match (m : CaseMode) (env : List (String × String))
    (key v : String) :
    (uncased_var m env key = Except.ok v ↔
      ∃ l₁ k l₂, env = l₁ ++ (k, v) :: l₂ ∧ m.uncasedEq k key = true ∧
        ∀ p ∈ l₁, m.uncasedEq p.1 key = false) ∧
    (lower_var m env key = Except.ok v ↔
      ∃ l₁ k l₂, env = l₁ ++ (k, v) :: l₂ ∧ (m.toLower k == key) = true ∧
        ∀ p ∈ l₁, (m.toLower p.1 == key) = false) ∧
    (upper_var m env key = Except.ok v ↔
      ∃ l₁ k l₂, env = l₁ ++ (k, v) :: l₂ ∧ (m.toUpper k == key) = true ∧
        ∀ p ∈ l₁, (m.toUpper p.1 == key) = false) := by
  refine ⟨?_, ?_, ?_⟩
  · rw [uncased_var_eq]
    exact lookup_ok_iff (fun p => m.uncasedEq p.1 key)
      (fun p => (UncasedPartialEq.mk p.1, p.2)) (fun p => rfl) env v
  · rw [lower_var_eq]
    exact lookup_ok_iff (fun p => m.toLower p.1 == key)
      (fun p => (m.toLower p.1, p.2)) (fun p => rfl) env v
  · rw [upper_var_eq]
    exact lookup_ok_iff (fun p => m.toUpper p.1 == key)
      (fun p => (m.toUpper p.1, p.2)) (fun p => rfl) env v

/-- Claim C3: each lookup returns an error exactly when no pair of the
snapshot matches the query under the selected policy, and that error is
always `VarError.NotPresent` (the only error value ever produced). -/
theorem lookups_not_found_iff (m : CaseMode) (env : List (String × String))
    (key : String) (e : VarError) :
    (uncased_var m env key = Except.error e ↔
      e = VarError.NotPresent ∧ ∀ p ∈ env, m.uncasedEq p.1 key = false) ∧
    (lower_var m env key = Except.error e ↔
      e = VarError.NotPresent ∧ ∀ p ∈ env, (m.toLower p.1 == key) = false) ∧
    (upper_var m env key = Except.error e ↔
      e = VarError.NotPresent ∧ ∀ p ∈ env, (m.toUpper p.1 == key) = false) := by
  refine ⟨?_, ?_, ?_⟩
  · rw [uncased_var_eq]
    exact lookup_error_iff _ _ env e
  · rw [lower_var_eq]
    exact lookup_error_iff _ _ env e
  · rw [upper_var_eq]
    exact lookup_error_iff _ _ env e

/-- Claim C5, counterexample to the claim as stated: with the environment
`[("A", "1"), ("a", "2")]` containing the pair `("a", "2")`,
`lower_var (toLower "a")` returns the value of the earlier pair `("A", "1")`
(whose lowercased key collides), not `Ok "2"`; symmetrically for `upper_var`
on `[("a", "1"), ("A", "2")]` and its pair `("A", "2")`. -/
theorem normalized_var_shadowed_cex :
    ("a", "2") ∈ [("A", "1"), ("a", "2")] ∧
    lower_var asciiMode [("A", "1"), ("a", "2")] (asciiMode.toLower "a") = Except.ok "1" ∧
    lower_var asciiMode [("A", "1"), ("a", "2")] (asciiMode.toLower "a") ≠ Except.ok "2" ∧
    ("A", "2") ∈ [("a", "1"), ("A", "2")] ∧
    upper_var asciiMode [("a", "1"), ("A", "2")] (asciiMode.toUpper "A") = Except.ok "1" ∧
    upper_var asciiMode [("a", "1"), ("A", "2")] (asciiMode.toUpper "A") ≠ Except.ok "2" := by
  decide

/-- Claim C5 (amended): for every environment pair `(K, V)`,
`lower_var (toLower K)` returns `Ok V` provided no earlier pair has the same
lowercase key image under the mode, and for every environment pair `(J, W)`,
`upper_var (toUpper J)` returns `Ok W` provided no earlier pair has the same
uppercase key image. The two conjuncts range over independent environments,
pairs and provisos, so each conditional stands on its own hypothesis. -/
theorem normalized_var_first_match (m : CaseMode)
    (l₁ l₂ r₁ r₂ : List (String × String)) (K V J W : String)
    (hl : ∀ p ∈ l₁, (m.toLower p.1 == m.toLower K) = false)
    (hu : ∀ p ∈ r₁, (m.toUpper p.1 == m.toUpper J) = false) :
    lower_var m (l₁ ++ (K, V) :: l₂) (m.toLower K) = Except.ok V ∧
    upper_var m (r₁ ++ (J, W) :: r₂) (m.toUpper J) = Except.ok W := by
  constructor
  · rw [lower_var_eq]
    exact (lookup_ok_iff (fun p => m.toLower p.1 == m.toLower K)
      (fun p => (m.toLower p.1, p.2)) (fun p => rfl) _ _).mpr
      ⟨l₁, K, l₂, rfl, by simp, hl⟩
  · rw [upper_var_eq]
    exact (lookup_ok_iff (fun p => m.toUpper p.1 == m.toUpper J)
      (fun p => (m.toUpper p.1, p.2)) (fun p => rfl) _ _).mpr
      ⟨r₁, J, r₂, rfl, by simp, hu⟩

theorem normalized_var_first_match_witness :
    (∀ p ∈ [("XY", "0")], (asciiMode.toLower p.1 == asciiMode.toLower "Ab") = false) ∧
    (∀ p ∈ [("cd", "1")], (asciiMode.toUpper p.1 == asciiMode.toUpper "eF") = false) ∧
    (lower_var asciiMode ([("XY", "0")] ++ ("Ab", "v") :: []) (asciiMode.toLower "Ab") =
       Except.ok "v" ∧
     upper_var asciiMode ([("cd", "1")] ++ ("eF", "w") :: []) (asciiMode.toUpper "eF") =
       Except.ok "w") :=
  ⟨by decide, by decide,
    normalized_var_first_match asciiMode [("XY", "0")] [] [("cd", "1")] [] "Ab" "v" "eF" "w"
      (by decide) (by decide)⟩

/-- Claim C6: each enumeration yields exactly as many pairs as the raw
snapshot, with every value unchanged and every key transformed only per the
mode (wrapped without text change, lowercased, uppercased respectively). -/
theorem enumerations_shape (m : CaseMode) (env : List (String × String)) :
    ((uncased_vars env).toList.length = env.length ∧
     (uncased_vars env).toList.map Prod.snd = env.map Prod.snd ∧
     (uncased_vars env).toList.map (fun p => p.1.key) = env.map Prod.fst) ∧
    ((LowerVars.toList m (lower_vars env)).length = env.length ∧
     (LowerVars.toList m (lower_vars env)).map Prod.snd = env.map Prod.snd ∧
     (LowerVars.toList m (lower_vars env)).map Prod.fst = env.map (fun p => m.toLower p.1)) ∧
    ((UpperVars.toList m (upper_vars env)).length = env.length ∧
     (UpperVars.toList m (upper_vars env)).map Prod.snd = env.map Prod.snd ∧
     (UpperVars.toList m (upper_vars env)).map Prod.fst = env.map (fun p => m.toUpper p.1)) := by
  simp [UncasedVars.toList, LowerVars.toList, UpperVars.toList, uncased_vars, lower_vars,
    upper_vars, uncasedCollect_eq, lowerCollect_eq, upperCollect_eq, List.length_map,
    List.map_map, Function.comp]

/-- Claim C7 (Unicode build, concrete scenario D): with the environment pair
`("Maße", "42")`, the uncased lookup of `"mAßE"`, the lowercase lookup of
`"maße"` and the uppercase lookup of `"MASSE"` (ß uppercases to `"SS"`) all
return `Ok "42"`. -/
theorem unicode_scenario_masse :
    uncased_var unicodeMode [("Maße", "42")] "mAßE" = Except.ok "42" ∧
    lower_var unicodeMode [("Maße", "42")] "maße" = Except.ok "42" ∧
    upper_var unicodeMode [("Maße", "42")] "MASSE" = Except.ok "42" := by
  decide

/-- Claim C8: each enumeration yields the snapshot pairs in exactly the
underlying listing order, never sorted and never deduplicated: the collected
iterator is precisely the pairwise key transform of the raw snapshot list. -/
theorem enumerations_preserve_order (m : CaseMode) (env : List (String × String)) :
    UncasedVars.toList (uncased_vars env) = env.map (fun p => (UncasedPartialEq.mk p.1, p.2)) ∧
    LowerVars.toList m (lower_vars env) = env.map (fun p => (m.toLower p.1, p.2)) ∧
    UpperVars.toList m (upper_vars env) = env.map (fun p => (m.toUpper p.1, p.2)) :=
  ⟨uncasedCollect_eq env, lowerCollect_eq m env, upperCollect_eq m env⟩

/-- Claim C9: on a fixed snapshot every enumeration and lookup is
deterministic: evaluating the same call twice on the unchanged snapshot
yields identical results. -/
theorem accessors_deterministic (m : CaseMode) (env : List (String × String))
    (key : String) :
    uncased_var m env key = uncased_var m env key ∧
    lower_var m env key = lower_var m env key ∧
    upper_var m env key = upper_var m env key ∧
    UncasedVars.toList (uncased_vars env) = UncasedVars.toList (uncased_vars env) ∧
    LowerVars.toList m (lower_vars env) = LowerVars.toList m (lower_vars env) ∧
    UpperVars.toList m (upper_vars env) = UpperVars.toList m (upper_vars env) :=
  ⟨rfl, rfl, rfl, rfl, rfl, rfl⟩

/-- Claim C10 (ASCII build): a query containing an uppercase ASCII letter
can never match any lowercased key, so `lower_var` returns `NotPresent` on
every environment; symmetrically `upper_var` for a query containing a
lowercase ASCII letter. -/
theorem ascii_case_mismatch_not_found (env : List (String × String))
    (key₁ key₂ : String)
    (h₁ : ∃ c ∈ key₁.data, 65 ≤ c.toNat ∧ c.toNat ≤ 90)
    (h₂ : ∃ c ∈ key₂.data, 97 ≤ c.toNat ∧ c.toNat ≤ 122) :
    lower_var asciiMode env key₁ = Except.error VarError.NotPresent ∧
    upper_var asciiMode env key₂ = Except.error VarError.NotPresent := by
  constructor
  · rw [lower_var_eq]
    refine (lookup_error_iff _ _ env _).mpr ⟨rfl, ?_⟩
    intro p hp
    cases hb : (asciiMode.toLower p.1 == key₁) with
    | false => rfl
    | true =>
      exfalso
      have heq : asciiMode.toLower p.1 = key₁ := eq_of_beq hb
      obtain ⟨c, hc, hcu⟩ := h₁
      rw [← heq] at hc
      have hmem : c ∈ p.1.data.map asciiLowerChar := by
        simpa [asciiMode, toAsciiLowercase] using hc
      obtain ⟨d, _, hdc⟩ := List.mem_map.mp hmem
      rw [← hdc] at hcu
      exact asciiLowerChar_not_upper d hcu
  · rw [upper_var_eq]
    refine (lookup_error_iff _ _ env _).mpr ⟨rfl, ?_⟩
    intro p hp
    cases hb : (asciiMode.toUpper p.1 == key₂) with
    | false => rfl
    | true =>
      exfalso
      have heq : asciiMode.toUpper p.1 = key₂ := eq_of_beq hb
      obtain ⟨c, hc, hcl⟩ := h₂
      rw [← heq] at hc
      have hmem : c ∈ p.1.data.map asciiUpperChar := by
        simpa [asciiMode, toAsciiUppercase] using hc
      obtain ⟨d, _, hdc⟩ := List.mem_map.mp hmem
      rw [← hdc] at hcl
      exact asciiUpperChar_not_lower d hcl

theorem ascii_case_mismatch_not_found_witness :
    (∃ c ∈ "Ab".data, 65 ≤ c.toNat ∧ c.toNat ≤ 90) ∧
    (∃ c ∈ "Ab".data, 97 ≤ c.toNat ∧ c.toNat ≤ 122) ∧
    (lower_var asciiMode [("Ab", "x")] "Ab" = Except.error VarError.NotPresent ∧
     upper_var asciiMode [("Ab", "x")] "Ab" = Except.error VarError.NotPresent) :=
  ⟨by decide, by decide,
    ascii_case_mismatch_not_found [("Ab", "x")] "Ab" "Ab" (by decide) (by decide)⟩

end Kasedenv
